import Mathlib

/-!
Shallow embedding of `src/unix/terminal.rs` from the linefeed repository
(Unix terminal backend: raw mode, signal relay, readiness wait, cursor
capabilities), together with theorems settling the spec claims.

Modelling conventions:
- `usize` is `Nat` on a 64-bit platform; the `!0` sentinel is `2 ^ 64 - 1`.
- `n as c_int` / `n as i32` casts are modelled by explicit truncation mod
  `2 ^ 32` with signed reinterpretation where the value matters.
- Signal numbers use the Linux values (SIGINT 2, SIGQUIT 3, SIGCONT 18,
  SIGTSTP 20), matching the platform the crate targets here.
- Fallible syscalls that a claim reasons about are given explicit fault
  parameters; byte strings are `List Nat` (byte values).
-/

namespace Linefeed

/-- The `Signal` enum of the `terminal` module (Continue, Interrupt,
Suspend, Quit). -/
inductive Signal
  | Continue
  | Interrupt
  | Suspend
  | Quit
deriving DecidableEq

/-- `SignalSet`: which of the four signals are present.  Only membership of
`Suspend` and `Quit` is consulted by `prepare`. -/
structure SignalSet where
  has_cont : Bool
  has_intr : Bool
  has_susp : Bool
  has_quit : Bool
deriving DecidableEq

/-- `SignalSet::contains`. -/
def SignalSet.contains (s : SignalSet) : Signal → Bool
  | Signal.Continue => s.has_cont
  | Signal.Interrupt => s.has_intr
  | Signal.Suspend => s.has_susp
  | Signal.Quit => s.has_quit

/-- Linux signal number for SIGINT. -/
def SIGINT : Nat := 2
/-- Linux signal number for SIGQUIT. -/
def SIGQUIT : Nat := 3
/-- Linux signal number for SIGCONT. -/
def SIGCONT : Nat := 18
/-- Linux signal number for SIGTSTP. -/
def SIGTSTP : Nat := 20

/-- The relay sentinel `!0` (`usize::MAX` on a 64-bit platform), stored by
`LAST_SIGNAL.store(!0, ...)` and compared against in `conv_signal`. -/
def SENTINEL : Nat := 2 ^ 64 - 1

/-- `conv_signal`: translate the raw relay value to a recognized signal.
`n == !0` is the sentinel; otherwise `n as c_int` (truncation mod `2 ^ 32`)
is checked against the four handled signals via `Signal::from_c_int`; every
other value (other valid signals included) yields `None`. -/
def conv_signal (n : Nat) : Option Signal :=
  if n = SENTINEL then none
  else
    let c := n % 2 ^ 32
    if c = SIGCONT then some Signal.Continue
    else if c = SIGINT then some Signal.Interrupt
    else if c = SIGTSTP then some Signal.Suspend
    else if c = SIGQUIT then some Signal.Quit
    else none

/-- `take_last_signal`: `conv_signal(LAST_SIGNAL.swap(!0))` — returns the
translation of the current slot and leaves the sentinel in the slot. -/
def take_last_signal (relay : Nat) : Option Signal × Nat :=
  (conv_signal relay, SENTINEL)

/-- `get_last_signal`: non-destructive translation of the current slot. -/
def get_last_signal (relay : Nat) : Option Signal :=
  conv_signal relay

/-- `std::time::Duration`: whole seconds and sub-second nanoseconds
(`nanos < 10 ^ 9` holds for every real `Duration`). -/
structure Duration where
  secs : Nat
  nanos : Nat
deriving DecidableEq

/-- `time_t::max_value()` for the 64-bit `time_t` of the target platform. -/
def time_t_max : Nat := 2 ^ 63 - 1

/-- `TimeVal`: seconds and microseconds.  Both fields are signed in C but
only nonnegative values are produced here, so `Nat` suffices. -/
structure TimeVal where
  tv_sec : Nat
  tv_usec : Nat
deriving DecidableEq

/-- `to_timeval`: clamp the seconds to `time_t::max_value()` and truncate
the sub-second nanoseconds to microseconds. -/
def to_timeval (d : Duration) : TimeVal :=
  let sec := if d.secs > time_t_max then time_t_max else d.secs
  { tv_sec := sec, tv_usec := d.nanos / 1000 }

/-- `UnixTerminal`: name, five control characters read from the initial
terminal attributes, and the capability strings resolved once at
construction.  Capability strings come from the external resolver
(`get_str`), which yields arbitrary NUL-free byte sequences; bytes are
modelled as `Nat` values below 256. -/
structure UnixTerminal where
  name : Option (List Nat)
  eof : Nat
  literal : Nat
  erase : Nat
  word_erase : Nat
  kill : Nat
  key_delete : List Nat
  key_insert : List Nat
  clear : List Nat
  clear_eos : List Nat
  cursor_up : List Nat
  cursor_up_n : List Nat
  cursor_down_n : List Nat
  cursor_left : List Nat
  cursor_left_n : List Nat
  cursor_right : List Nat
  cursor_right_n : List Nat
deriving DecidableEq

/-- Is `b` a UTF-8 continuation byte (`0x80..=0xBF`)? -/
def utf8Cont (b : Nat) : Bool :=
  0x80 ≤ b && b < 0xC0

/-- UTF-8 validity of a byte sequence, as checked by Rust's
`str::from_utf8` (rejecting overlong encodings, surrogates and values
above U+10FFFF). -/
def utf8Valid : List Nat → Bool
  | [] => true
  | b :: rest =>
    if b < 0x80 then utf8Valid rest
    else if b < 0xC2 then false
    else if b ≤ 0xDF then
      match rest with
      | b1 :: r => utf8Cont b1 && utf8Valid r
      | [] => false
    else if b ≤ 0xEF then
      match rest with
      | b1 :: b2 :: r =>
          (if b = 0xE0 then decide (0xA0 ≤ b1) && decide (b1 < 0xC0)
           else if b = 0xED then decide (0x80 ≤ b1) && decide (b1 < 0xA0)
           else utf8Cont b1) && utf8Cont b2 && utf8Valid r
      | _ => false
    else if b ≤ 0xF4 then
      match rest with
      | b1 :: b2 :: b3 :: r =>
          (if b = 0xF0 then decide (0x90 ≤ b1) && decide (b1 < 0xC0)
           else if b = 0xF4 then decide (0x80 ≤ b1) && decide (b1 < 0x90)
           else utf8Cont b1) && utf8Cont b2 && utf8Cont b3 && utf8Valid r
      | _ => false
    else false

/-- `eof_char`: the end-of-file control character (`self.eof as char`). -/
def eof_char (t : UnixTerminal) : Nat := t.eof

/-- `literal_char`: the literal-next control character. -/
def literal_char (t : UnixTerminal) : Nat := t.literal

/-- `erase_char`: the erase/backspace control character. -/
def erase_char (t : UnixTerminal) : Nat := t.erase

/-- `word_erase_char`: the word-erase control character. -/
def word_erase_char (t : UnixTerminal) : Nat := t.word_erase

/-- `kill_char`: the kill control character. -/
def kill_char (t : UnixTerminal) : Nat := t.kill

/-- `delete_seq`: `self.key_delete.to_str().unwrap()` — `none` models the
panic of `unwrap` when the capability bytes are not valid UTF-8. -/
def delete_seq (t : UnixTerminal) : Option (List Nat) :=
  if utf8Valid t.key_delete then some t.key_delete else none

/-- `insert_seq`: `self.key_insert.to_str().unwrap()` — `none` models the
panic of `unwrap` when the capability bytes are not valid UTF-8. -/
def insert_seq (t : UnixTerminal) : Option (List Nat) :=
  if utf8Valid t.key_insert then some t.key_insert else none

/-- `name`: the stored terminal name, as a string slice of the field. -/
def name_acc (t : UnixTerminal) : Option (List Nat) := t.name

/-- Output instruction emitted by a cursor operation: either `put` of a
capability string verbatim, or `put` of the `term_param` expansion of a
parameterized capability at an `i32` argument. -/
inductive Out
  | putCap (cap : List Nat)
  | putParam (cap : List Nat) (arg : Int)
deriving DecidableEq

/-- The value of `n as i32` for `n : usize` (two's-complement truncation
of the low 32 bits). -/
def i32cast (n : Nat) : Int :=
  let m : Nat := n % 2 ^ 32
  if m < 2 ^ 31 then (m : Int) else (m : Int) - 2 ^ 32

/-- `move_up`: no-op at 0, single-step `cuu1` at 1, `term_param` of `cuu`
otherwise. -/
def move_up (t : UnixTerminal) (n : Nat) : List Out :=
  if n = 0 then []
  else if n = 1 then [Out.putCap t.cursor_up]
  else [Out.putParam t.cursor_up_n (i32cast n)]

/-- `move_down`: no-op at 0; otherwise always `term_param` of `cud`
(`cud1` is never fetched, let alone used). -/
def move_down (t : UnixTerminal) (n : Nat) : List Out :=
  if n = 0 then []
  else [Out.putParam t.cursor_down_n (i32cast n)]

/-- `move_left`: no-op at 0, single-step `cub1` at 1, `term_param` of
`cub` otherwise. -/
def move_left (t : UnixTerminal) (n : Nat) : List Out :=
  if n = 0 then []
  else if n = 1 then [Out.putCap t.cursor_left]
  else [Out.putParam t.cursor_left_n (i32cast n)]

/-- `move_right`: no-op at 0, single-step `cuf1` at 1, `term_param` of
`cuf` otherwise. -/
def move_right (t : UnixTerminal) (n : Nat) : List Out :=
  if n = 0 then []
  else if n = 1 then [Out.putCap t.cursor_right]
  else [Out.putParam t.cursor_right_n (i32cast n)]

/-- A concrete terminal used for counterexamples and witnesses: plausible
byte values, with a deliberately non-UTF-8 delete-key capability
(`0xFF` is never valid in UTF-8) as the external capability resolver may
supply. -/
def tElan : UnixTerminal :=
  { name := some [120, 116, 101, 114, 109]
    eof := 4
    literal := 22
    erase := 127
    word_erase := 23
    kill := 21
    key_delete := [0xFF]
    key_insert := [27, 91, 50, 126]
    clear := [27, 91, 72, 27, 91, 74]
    clear_eos := [27, 91, 74]
    cursor_up := [27, 91, 65]
    cursor_up_n := [27, 91, 37, 65]
    cursor_down_n := [27, 91, 37, 66]
    cursor_left := [8]
    cursor_left_n := [27, 91, 37, 68]
    cursor_right := [27, 91, 67]
    cursor_right_n := [27, 91, 37, 67] }

/-- The terminal-discipline fields this backend touches: the input and
local flags it clears and the `VMIN`/`VTIME` control slots. -/
structure Termios where
  inlcr : Bool
  icrnl : Bool
  ixon : Bool
  icanon : Bool
  echo : Bool
  isig : Bool
  vmin : Nat
  vtime : Nat
deriving DecidableEq

/-- A signal disposition: either the shared handler installed by
`prepare`, or any other disposition (identified abstractly). -/
inductive Disp
  | shared
  | other (id : Nat)
deriving DecidableEq

/-- `TerminalGuard`: the attribute snapshot plus the four optional saved
dispositions, each present only if that signal's disposition was
changed. -/
structure TerminalGuard where
  old_tio : Termios
  old_sigcont : Option Disp
  old_sigint : Option Disp
  old_sigtstp : Option Disp
  old_sigquit : Option Disp
deriving DecidableEq

/-- `TerminalGuard::new`. -/
def TerminalGuard.new (t : Termios) : TerminalGuard :=
  { old_tio := t
    old_sigcont := none
    old_sigint := none
    old_sigtstp := none
    old_sigquit := none }

/-- The individual restoration steps of `TerminalGuard::restore`, in
source order. -/
inductive RAct
  | tio
  | sigcont
  | sigint
  | sigtstp
  | sigquit
deriving DecidableEq

/-- Fault injection for `restore`: which of the five underlying syscalls
(`tcsetattr` and the four `sigaction` calls) fail if attempted. -/
structure Faults where
  f_tio : Bool
  f_sigcont : Bool
  f_sigint : Bool
  f_sigtstp : Bool
  f_sigquit : Bool
deriving DecidableEq

/-- The `old_sigquit` restoration step of `restore` (last in the `?`
chain). -/
def restoreQuitStep (g : TerminalGuard) (f : Faults) (acc : List RAct) :
    List RAct × Except Unit Unit :=
  match g.old_sigquit with
  | none => (acc, Except.ok ())
  | some _ =>
    let acc := acc ++ [RAct.sigquit]
    if f.f_sigquit then (acc, Except.error ()) else (acc, Except.ok ())

/-- The `old_sigtstp` restoration step of `restore`; on success it falls
through to the `old_sigquit` step. -/
def restoreTstpStep (g : TerminalGuard) (f : Faults) (acc : List RAct) :
    List RAct × Except Unit Unit :=
  match g.old_sigtstp with
  | none => restoreQuitStep g f acc
  | some _ =>
    let acc := acc ++ [RAct.sigtstp]
    if f.f_sigtstp then (acc, Except.error ()) else restoreQuitStep g f acc

/-- The `old_sigint` restoration step of `restore`; on success it falls
through to the `old_sigtstp` step. -/
def restoreIntStep (g : TerminalGuard) (f : Faults) (acc : List RAct) :
    List RAct × Except Unit Unit :=
  match g.old_sigint with
  | none => restoreTstpStep g f acc
  | some _ =>
    let acc := acc ++ [RAct.sigint]
    if f.f_sigint then (acc, Except.error ()) else restoreTstpStep g f acc

/-- The `old_sigcont` restoration step of `restore`; on success it falls
through to the `old_sigint` step. -/
def restoreContStep (g : TerminalGuard) (f : Faults) (acc : List RAct) :
    List RAct × Except Unit Unit :=
  match g.old_sigcont with
  | none => restoreIntStep g f acc
  | some _ =>
    let acc := acc ++ [RAct.sigcont]
    if f.f_sigcont then (acc, Except.error ()) else restoreIntStep g f acc

/-- `TerminalGuard::restore` under fault injection: `tcsetattr` first
(its `?` returns immediately on failure), then each saved disposition in
source order, each `sigaction` also behind `?`.  Returns the list of
attempted steps and the overall result. -/
def restore (g : TerminalGuard) (f : Faults) : List RAct × Except Unit Unit :=
  if f.f_tio then ([RAct.tio], Except.error ())
  else restoreContStep g f [RAct.tio]

/-- The full restoration sequence `restore` attempts when nothing
fails: attributes first, then the saved dispositions in source order. -/
def restorePlan (g : TerminalGuard) : List RAct :=
  [RAct.tio]
    ++ (if g.old_sigcont.isSome then [RAct.sigcont] else [])
    ++ (if g.old_sigint.isSome then [RAct.sigint] else [])
    ++ (if g.old_sigtstp.isSome then [RAct.sigtstp] else [])
    ++ (if g.old_sigquit.isSome then [RAct.sigquit] else [])

/-- Which underlying syscall fails for a given restoration step, under
the fault assignment `f`. -/
def faultOf (f : Faults) : RAct → Bool
  | RAct.tio => f.f_tio
  | RAct.sigcont => f.f_sigcont
  | RAct.sigint => f.f_sigint
  | RAct.sigtstp => f.f_sigtstp
  | RAct.sigquit => f.f_sigquit

/-- Reference function for the release contract, following the amended
claim's words rather than the source: attempt the planned steps in
order, stopping at the first step whose underlying call fails (later
steps are then not attempted); succeed exactly when every planned step
ran without failure.  `restore` is proved equal to this function run on
its restoration plan. -/
def runPlan (f : Faults) : List RAct → List RAct × Except Unit Unit
  | [] => ([], Except.ok ())
  | a :: rest =>
    if faultOf f a then ([a], Except.error ())
    else
      let r := runPlan f rest
      (a :: r.1, r.2)

/-- `Drop for TerminalGuard`: run `restore`; on error write one
diagnostic line (the returned flag) and swallow the error — the drop
itself cannot fail. -/
def dropGuard (g : TerminalGuard) (f : Faults) : List RAct × Bool :=
  let r := restore g f
  (r.1, match r.2 with
        | Except.error _ => true
        | Except.ok _ => false)

/-- A concrete `Termios` value for counterexamples and witnesses. -/
def tioElan : Termios :=
  { inlcr := true
    icrnl := true
    ixon := true
    icanon := true
    echo := true
    isig := true
    vmin := 1
    vtime := 0 }

/-- A guard that saved all four dispositions. -/
def gElan : TerminalGuard :=
  { old_tio := tioElan
    old_sigcont := some (Disp.other 1)
    old_sigint := some (Disp.other 2)
    old_sigtstp := some (Disp.other 3)
    old_sigquit := some (Disp.other 4) }

/-- The process-wide state the backend manipulates: the relay slot
(`LAST_SIGNAL`), the terminal discipline, the four signal dispositions,
and the `resume` cell of the `UnixTerminal`. -/
structure MState where
  relay : Nat
  tio : Termios
  sigcont : Disp
  sigint : Disp
  sigtstp : Disp
  sigquit : Disp
  resumeCell : Option (Bool × SignalSet)
deriving DecidableEq

/-- The attribute mutation performed by `prepare`: clear `INLCR`, `ICRNL`,
`ICANON`, `ECHO`; set `VMIN` and `VTIME` to zero. -/
def rawMode (t : Termios) : Termios :=
  { t with inlcr := false, icrnl := false, icanon := false, echo := false,
           vmin := 0, vtime := 0 }

/-- Observable side effects of `prepare` and `resume`, in execution
order. -/
inductive Act
  | setTio (t : Termios)
  | clearRelay
  | install (s : Signal)
  | setRelay (n : Nat)
  | recordResume (p : Bool × SignalSet)
  | forgetGuard
deriving DecidableEq

/-- `UnixTerminal::prepare` (success path): mutate the attributes; if
`catch_signals`, store the sentinel into the relay and then install the
shared handler for Continue and Interrupt unconditionally and for
Suspend/Quit only if present in `report_signals`, saving each replaced
disposition in the guard; finally record the parameters in the resume
cell.  Returns the new state, the guard, and the ordered effect trace. -/
def prepare (catch_signals : Bool) (rs : SignalSet) (st : MState) :
    MState × TerminalGuard × List Act :=
  let old_tio := st.tio
  let tio := rawMode old_tio
  let st1 := { st with tio := tio }
  let acts1 := [Act.setTio tio]
  let g1 := TerminalGuard.new old_tio
  let (st2, g2, acts2) :=
    if catch_signals then
      let stc := { st1 with relay := SENTINEL }
      let ga := { g1 with old_sigcont := some stc.sigcont }
      let sta := { stc with sigcont := Disp.shared }
      let gb := { ga with old_sigint := some sta.sigint }
      let stb := { sta with sigint := Disp.shared }
      let actsb := acts1 ++ [Act.clearRelay, Act.install Signal.Continue,
        Act.install Signal.Interrupt]
      let (stc2, gc, actsc) :=
        if rs.contains Signal.Suspend then
          ({ stb with sigtstp := Disp.shared },
           { gb with old_sigtstp := some stb.sigtstp },
           actsb ++ [Act.install Signal.Suspend])
        else (stb, gb, actsb)
      if rs.contains Signal.Quit then
        ({ stc2 with sigquit := Disp.shared },
         { gc with old_sigquit := some stc2.sigquit },
         actsc ++ [Act.install Signal.Quit])
      else (stc2, gc, actsc)
    else (st1, g1, acts1)
  ({ st2 with resumeCell := some (catch_signals, rs) }, g2,
   acts2 ++ [Act.recordResume (catch_signals, rs)])

/-- `UnixTerminal::resume`: if the resume cell holds parameters, take them
(emptying the cell), snapshot the raw relay value, call `prepare` with the
same parameters, write the snapshot back into the relay, forget the fresh
guard (it is never restored), and refill the resume cell. -/
def resumeFn (st : MState) : MState × List Act :=
  match st.resumeCell with
  | none => (st, [])
  | some (cs, rs) =>
    let sig := st.relay
    let st1 : MState := { st with resumeCell := none }
    let p := prepare cs rs st1
    ({ p.1 with relay := sig, resumeCell := some (cs, rs) },
     p.2.2 ++ [Act.setRelay sig, Act.forgetGuard])

/-- One outcome of the `select` call inside `wait_for_input`: readiness
count `n`, an `EINTR` interruption (carrying the raw signal value the
shared handler stored during the wait, if any), or another error. -/
inductive SelEv
  | ready (n : Nat)
  | eintr (w : Option Nat)
  | errOther
deriving DecidableEq

/-- The relay write performed by the shared handler during an interrupted
wait (`w = none`: the interrupting signal had no relay-writing handler). -/
def relayWrite (st : MState) (w : Option Nat) : MState :=
  match w with
  | some n => { st with relay := n }
  | none => st

/-- `UnixTerminal::wait_for_input` over a finite schedule of `select`
outcomes: `Ok n` returns `n == 1`; `EINTR` consults `get_last_signal` —
Continue runs the resume handshake and returns true, any other recognized
signal returns true immediately, nothing recognized restarts the wait;
other errors propagate.  `none` means the schedule ended with the loop
still waiting. -/
def waitForInput : List SelEv → MState → MState × Option (Except Unit Bool)
  | [], st => (st, none)
  | SelEv.ready n :: _, st => (st, some (Except.ok (n == 1)))
  | SelEv.errOther :: _, st => (st, some (Except.error ()))
  | SelEv.eintr w :: rest, st =>
    let st1 := relayWrite st w
    match get_last_signal st1.relay with
    | some Signal.Continue => ((resumeFn st1).1, some (Except.ok true))
    | some _ => (st1, some (Except.ok true))
    | none => waitForInput rest st1

/-- Writing `chunk` into memory `mem` starting at position `start`
(the in-place fill performed by the `read` syscall on the spare
capacity). -/
def writeAt (mem : List Nat) (start : Nat) (chunk : List Nat) : List Nat :=
  mem.take start ++ chunk ++ mem.drop (start + chunk.length)

/-- `UnixTerminal::read`: `buf.reserve(32)` exposes spare capacity
(`junk`, the uninitialized bytes, of length ≥ 32); `set_len(cap)` makes
them visible; `read_stdin` fills the tail slice from position `len` with
`chunk` (its result `res`); `set_len(len)` hides the tail again; on error
the error propagates with the buffer back at length `len`; on success
`set_len(len + n)` exposes exactly the bytes read.  Returns the final
buffer contents and the result. -/
def read_impl (buf junk : List Nat) (res : Except Unit (List Nat)) :
    List Nat × Except Unit Nat :=
  let len := buf.length
  let mem := buf ++ junk
  match res with
  | Except.error e => (mem.take len, Except.error e)
  | Except.ok chunk =>
    let mem2 := writeAt mem len chunk
    (mem2.take (len + chunk.length), Except.ok chunk.length)

/-- A concrete signal set for witnesses: report Suspend but not Quit. -/
def rsElan : SignalSet :=
  { has_cont := true
    has_intr := true
    has_susp := true
    has_quit := false }

/-- A concrete machine state whose resume cell records a previous
`prepare(true, rsElan)`. -/
def stElan : MState :=
  { relay := SENTINEL
    tio := tioElan
    sigcont := Disp.other 1
    sigint := Disp.other 2
    sigtstp := Disp.other 3
    sigquit := Disp.other 4
    resumeCell := some (true, rsElan) }

/-- C8: for every relay state, the first `take()` returns the translation of
the recorded value and swaps the sentinel into the slot, and a second
`take()` returns none-recognized: after any `take()` the relay holds the
sentinel. -/
theorem take_last_signal_twice (r : Nat) :
    (take_last_signal r).1 = conv_signal r ∧
    (take_last_signal r).2 = SENTINEL ∧
    (take_last_signal (take_last_signal r).2).1 = none := by
  refine ⟨rfl, rfl, ?_⟩
  simp [take_last_signal, conv_signal]

/-- C9: timeout conversion truncates to whole seconds plus microseconds;
when the seconds component exceeds the platform maximum the result's
seconds field is exactly that maximum (no wrap-around, no error). -/
theorem to_timeval_clamps (d : Duration) :
    (to_timeval d).tv_usec = d.nanos / 1000 ∧
    (d.secs > time_t_max → (to_timeval d).tv_sec = time_t_max) ∧
    (d.secs ≤ time_t_max → (to_timeval d).tv_sec = d.secs) := by
  refine ⟨rfl, ?_, ?_⟩
  · intro h
    simp [to_timeval, h]
  · intro h
    simp [to_timeval, Nat.not_lt.mpr h]

/-- C9 witness: a duration whose seconds exceed `time_t::max_value()`
converts to exactly the maximum, with microsecond truncation. -/
theorem to_timeval_clamps_witness :
    (to_timeval ⟨2 ^ 63, 123456789⟩).tv_sec = time_t_max ∧
    (to_timeval ⟨2 ^ 63, 123456789⟩).tv_usec = 123456789 / 1000 :=
  ⟨(to_timeval_clamps ⟨2 ^ 63, 123456789⟩).2.1 (by decide),
   (to_timeval_clamps ⟨2 ^ 63, 123456789⟩).1⟩

/-- C2 counterexample: a constructed session whose delete-key capability
bytes are not valid UTF-8 (the external capability resolver supplies
arbitrary NUL-free bytes) makes `delete_seq` panic: `to_str().unwrap()`
fails, modelled as `none`. -/
theorem delete_seq_panic_counterexample :
    (delete_seq tElan).isSome = false := by
  decide

/-- C2 amended: the five control-character accessors and `name` are pure
total reads of constructed state; `delete_seq` and `insert_seq` are pure
reads that return the stored capability bytes exactly when those bytes are
valid UTF-8, and panic (`none`) otherwise. -/
theorem accessors_pure_amended (t : UnixTerminal) :
    eof_char t = t.eof ∧ literal_char t = t.literal ∧
    erase_char t = t.erase ∧ word_erase_char t = t.word_erase ∧
    kill_char t = t.kill ∧ name_acc t = t.name ∧
    ((delete_seq t).isSome ↔ utf8Valid t.key_delete = true) ∧
    ((insert_seq t).isSome ↔ utf8Valid t.key_insert = true) ∧
    (utf8Valid t.key_delete = true → delete_seq t = some t.key_delete) ∧
    (utf8Valid t.key_insert = true → insert_seq t = some t.key_insert) := by
  refine ⟨rfl, rfl, rfl, rfl, rfl, rfl, ?_, ?_, ?_, ?_⟩ <;>
    simp [delete_seq, insert_seq]

/-- C2 witness: on the concrete session, `insert_seq` succeeds and returns
the stored capability bytes, since they are valid UTF-8. -/
theorem accessors_pure_amended_witness :
    insert_seq tElan = some tElan.key_insert :=
  (accessors_pure_amended tElan).2.2.2.2.2.2.2.2.2 (by decide)

/-- C3 counterexample: `move_down` passes `n as i32`, so at
`n = 2 ^ 32 + 3` it emits the parameterized expansion with argument `3`,
not with parameter `n` as the claim states. -/
theorem move_down_cast_counterexample :
    move_down tElan (2 ^ 32 + 3) = [Out.putParam tElan.cursor_down_n 3] ∧
    move_down tElan (2 ^ 32 + 3) ≠
      [Out.putParam tElan.cursor_down_n ((2 ^ 32 + 3 : Nat) : Int)] := by
  refine ⟨?_, ?_⟩ <;> decide

/-- C3 amended: `move_down 0` emits nothing; for every `n ≥ 1` (including
`n = 1`) `move_down` emits the parameterized-capability expansion with the
`i32` truncation of `n` (equal to `n` whenever `n < 2 ^ 31`), and it never
emits a single-step capability. -/
theorem move_down_param_only (t : UnixTerminal) (n : Nat) :
    move_down t 0 = [] ∧
    (1 ≤ n → move_down t n = [Out.putParam t.cursor_down_n (i32cast n)]) ∧
    (∀ c, Out.putCap c ∉ move_down t n) := by
  refine ⟨by simp [move_down], ?_, ?_⟩
  · intro h
    simp [move_down, Nat.pos_iff_ne_zero.mp h]
  · intro c
    by_cases h : n = 0 <;> simp [move_down, h]

/-- C3 witness: at `n = 1` the parameterized form is emitted (with
argument `1`), not the single-step form. -/
theorem move_down_param_only_witness :
    move_down tElan 1 = [Out.putParam tElan.cursor_down_n (i32cast 1)] :=
  (move_down_param_only tElan 1).2.1 (by decide)

/-- C7 counterexample: `move_up` passes `n as i32`, so at
`n = 2 ^ 32 + 3` it emits the parameterized expansion with argument `3`,
not expanded with `n` as the claim states. -/
theorem move_up_cast_counterexample :
    move_up tElan (2 ^ 32 + 3) = [Out.putParam tElan.cursor_up_n 3] ∧
    move_up tElan (2 ^ 32 + 3) ≠
      [Out.putParam tElan.cursor_up_n ((2 ^ 32 + 3 : Nat) : Int)] := by
  refine ⟨?_, ?_⟩ <;> decide

/-- C7 amended: `move_up`, `move_left`, `move_right` emit nothing at
`n = 0`, the single-step capability at `n = 1`, and for `n > 1` the
parameterized capability expanded with the `i32` truncation of `n`
(equal to `n` whenever `n < 2 ^ 31`). -/
theorem move_step_caps (t : UnixTerminal) (n : Nat) :
    move_up t 0 = [] ∧ move_left t 0 = [] ∧ move_right t 0 = [] ∧
    move_up t 1 = [Out.putCap t.cursor_up] ∧
    move_left t 1 = [Out.putCap t.cursor_left] ∧
    move_right t 1 = [Out.putCap t.cursor_right] ∧
    (1 < n →
      move_up t n = [Out.putParam t.cursor_up_n (i32cast n)] ∧
      move_left t n = [Out.putParam t.cursor_left_n (i32cast n)] ∧
      move_right t n = [Out.putParam t.cursor_right_n (i32cast n)]) := by
  refine ⟨by simp [move_up], by simp [move_left], by simp [move_right],
    by simp [move_up], by simp [move_left], by simp [move_right], ?_⟩
  intro h
  have h0 : n ≠ 0 := by omega
  have h1 : n ≠ 1 := by omega
  exact ⟨by simp [move_up, h0, h1], by simp [move_left, h0, h1],
    by simp [move_right, h0, h1]⟩

/-- C7 witness: at `n = 2` the three operations emit the parameterized
expansions with argument `2`. -/
theorem move_step_caps_witness :
    move_up tElan 2 = [Out.putParam tElan.cursor_up_n (i32cast 2)] ∧
    move_left tElan 2 = [Out.putParam tElan.cursor_left_n (i32cast 2)] ∧
    move_right tElan 2 = [Out.putParam tElan.cursor_right_n (i32cast 2)] :=
  (move_step_caps tElan 2).2.2.2.2.2.2 (by decide)

/-- C1 counterexample: with all four dispositions saved, a failing
`tcsetattr` makes `restore` return after attempting only the attribute
step — no signal disposition restoration is attempted; likewise a failure
restoring the Continue disposition prevents restoring the others. -/
theorem restore_not_independent_counterexample :
    (restore gElan ⟨true, false, false, false, false⟩).1 = [RAct.tio] ∧
    RAct.sigcont ∉ (restore gElan ⟨true, false, false, false, false⟩).1 ∧
    (restore gElan ⟨false, true, false, false, false⟩).1 =
      [RAct.tio, RAct.sigcont] ∧
    RAct.sigint ∉ (restore gElan ⟨false, true, false, false, false⟩).1 := by
  refine ⟨?_, ?_, ?_, ?_⟩ <;> decide

/-- C1 amended: release restores the terminal attributes first and then
each saved signal disposition in order (Continue, Interrupt, Suspend,
Quit), but the sequence stops at the first failure — `restore` equals,
for every guard and every fault assignment, the reference run of its
restoration plan that attempts each planned step in order, ends at the
first failing step with an error, and succeeds exactly when every
planned step ran; `Drop` performs the same attempts, cannot itself fail,
and emits its diagnostic exactly when `restore` failed. -/
theorem restore_sequential_early_exit (g : TerminalGuard) (f : Faults) :
    restore g f = runPlan f (restorePlan g) ∧
    ((restore g f).2 = Except.ok () →
      dropGuard g f = ((restore g f).1, false)) ∧
    ((restore g f).2 = Except.error () →
      dropGuard g f = ((restore g f).1, true)) := by
  refine ⟨?_, ?_, ?_⟩
  · obtain ⟨t, oc, oi, ot, oq⟩ := g
    obtain ⟨ft, fc, fi, fs, fq⟩ := f
    cases oc <;> cases oi <;> cases ot <;> cases oq <;>
      cases ft <;> cases fc <;> cases fi <;> cases fs <;> cases fq <;> rfl
  · intro h
    simp [dropGuard, h]
  · intro h
    simp [dropGuard, h]

/-- C1 witness: on a guard holding all four saved dispositions, with
nothing failing `restore` runs the full plan, `Drop` stays silent; with
only the Interrupt-step syscall failing, `Drop` performs the truncated
attempts and emits its diagnostic. -/
theorem restore_sequential_early_exit_witness :
    restore gElan ⟨false, false, false, false, false⟩ =
      runPlan ⟨false, false, false, false, false⟩ (restorePlan gElan) ∧
    dropGuard gElan ⟨false, false, false, false, false⟩ =
      ((restore gElan ⟨false, false, false, false, false⟩).1, false) ∧
    dropGuard gElan ⟨false, false, true, false, false⟩ =
      ((restore gElan ⟨false, false, true, false, false⟩).1, true) :=
  ⟨(restore_sequential_early_exit gElan
      ⟨false, false, false, false, false⟩).1,
    (restore_sequential_early_exit gElan
      ⟨false, false, false, false, false⟩).2.1 rfl,
    (restore_sequential_early_exit gElan
      ⟨false, false, true, false, false⟩).2.2 rfl⟩

/-- C6: `prepare` with `catch_signals = true` clears the relay to the
sentinel before installing handlers, installs the shared handler for
Continue and Interrupt unconditionally and for Suspend/Quit only when
present in `report_signals`, saves the previous disposition exactly for
the touched signals (the guard holds `none` for untouched ones), and
records `(catch_signals, report_signals)` into the resume cell — the
effect trace shows the clear preceding every install, and the record
coming last. -/
theorem prepare_catch_signals (st : MState) (rs : SignalSet) :
    (prepare true rs st).1.relay = SENTINEL ∧
    (prepare true rs st).2.1.old_sigcont = some st.sigcont ∧
    (prepare true rs st).2.1.old_sigint = some st.sigint ∧
    (prepare true rs st).2.1.old_sigtstp =
      (if rs.contains Signal.Suspend then some st.sigtstp else none) ∧
    (prepare true rs st).2.1.old_sigquit =
      (if rs.contains Signal.Quit then some st.sigquit else none) ∧
    (prepare true rs st).1.sigcont = Disp.shared ∧
    (prepare true rs st).1.sigint = Disp.shared ∧
    (prepare true rs st).1.sigtstp =
      (if rs.contains Signal.Suspend then Disp.shared else st.sigtstp) ∧
    (prepare true rs st).1.sigquit =
      (if rs.contains Signal.Quit then Disp.shared else st.sigquit) ∧
    (prepare true rs st).1.resumeCell = some (true, rs) ∧
    (prepare true rs st).2.2 =
      [Act.setTio (rawMode st.tio), Act.clearRelay,
        Act.install Signal.Continue, Act.install Signal.Interrupt]
        ++ (if rs.contains Signal.Suspend
            then [Act.install Signal.Suspend] else [])
        ++ (if rs.contains Signal.Quit then [Act.install Signal.Quit] else [])
        ++ [Act.recordResume (true, rs)] := by
  obtain ⟨rc, ri, rsu, rq⟩ := rs
  cases rsu <;> cases rq <;>
    simp [prepare, SignalSet.contains, TerminalGuard.new]

/-- C5: the resume handshake snapshots the recorded raw signal, calls
`prepare` with the parameters stored in the resume cell, writes the
snapshot back into the relay, keeps the fresh guard alive (it is
forgotten, never restored), and refills the cell — so after
`wait_for_input` returns true on a Continue, a subsequent `take()` still
reports Continue. -/
theorem resume_handshake (st : MState) (cs : Bool) (rs : SignalSet)
    (h : st.resumeCell = some (cs, rs)) :
    resumeFn st =
      ({ (prepare cs rs { st with resumeCell := none }).1 with
          relay := st.relay, resumeCell := some (cs, rs) },
        (prepare cs rs { st with resumeCell := none }).2.2
          ++ [Act.setRelay st.relay, Act.forgetGuard]) ∧
    (resumeFn st).1.relay = st.relay ∧
    (resumeFn st).1.resumeCell = some (cs, rs) ∧
    (∀ n, conv_signal n = some Signal.Continue →
      (waitForInput [SelEv.eintr (some n)] st).2 = some (Except.ok true) ∧
      (take_last_signal
        (waitForInput [SelEv.eintr (some n)] st).1.relay).1 =
          some Signal.Continue) := by
  refine ⟨by simp [resumeFn, h], by simp [resumeFn, h],
    by simp [resumeFn, h], ?_⟩
  intro n hn
  constructor
  · simp [waitForInput, relayWrite, get_last_signal, hn]
  · simp [waitForInput, relayWrite, get_last_signal, hn, resumeFn, h,
      take_last_signal]

/-- C5 witness: on the concrete state with a recorded preparation, the
relay survives the handshake, and a simulated Continue during a wait
yields true with a subsequent `take()` still reporting Continue. -/
theorem resume_handshake_witness :
    (resumeFn stElan).1.relay = stElan.relay ∧
    (waitForInput [SelEv.eintr (some SIGCONT)] stElan).2 =
      some (Except.ok true) ∧
    (take_last_signal
      (waitForInput [SelEv.eintr (some SIGCONT)] stElan).1.relay).1 =
        some Signal.Continue :=
  ⟨(resume_handshake stElan true rsElan rfl).2.1,
    ((resume_handshake stElan true rsElan rfl).2.2.2 SIGCONT (by decide)).1,
    ((resume_handshake stElan true rsElan rfl).2.2.2 SIGCONT (by decide)).2⟩

/-- Auxiliary: `wait_for_input` can produce `Ok false` only when some
`select` outcome in the schedule was a readiness count other than 1 —
that is, a timeout return. -/
theorem wait_false_requires_timeout :
    ∀ (evs : List SelEv) (s0 s1 : MState),
      waitForInput evs s0 = (s1, some (Except.ok false)) →
      ∃ n, n ≠ 1 ∧ SelEv.ready n ∈ evs := by
  intro evs
  induction evs with
  | nil =>
    intro s0 s1 h
    simp [waitForInput] at h
  | cons ev rest ih =>
    intro s0 s1 h
    match ev with
    | SelEv.ready n =>
      simp [waitForInput] at h
      refine ⟨n, ?_, by simp⟩
      simpa using h.2
    | SelEv.errOther =>
      simp [waitForInput] at h
    | SelEv.eintr w =>
      rw [waitForInput] at h
      match hg : get_last_signal (relayWrite s0 w).relay with
      | some Signal.Continue => rw [hg] at h; simp at h
      | some Signal.Interrupt => rw [hg] at h; simp at h
      | some Signal.Suspend => rw [hg] at h; simp at h
      | some Signal.Quit => rw [hg] at h; simp at h
      | none =>
        rw [hg] at h
        obtain ⟨n, hn, hmem⟩ := ih _ _ h
        exact ⟨n, hn, by simp [hmem]⟩

/-- C4: on an interrupted wait the relay is consulted — a recorded
Continue triggers the resume handshake and returns true; any other
recognized signal returns true immediately without re-polling; nothing
recognized restarts the wait; a `select` return yields `n == 1`; and
`Ok false` arises only from a readiness count other than one, i.e. a
timeout with no readiness and no recognized signal. -/
theorem wait_for_input_paths (st : MState) (rest : List SelEv)
    (w : Option Nat) :
    (conv_signal (relayWrite st w).relay = some Signal.Continue →
      waitForInput (SelEv.eintr w :: rest) st =
        ((resumeFn (relayWrite st w)).1, some (Except.ok true))) ∧
    (∀ s, conv_signal (relayWrite st w).relay = some s →
      s ≠ Signal.Continue →
      waitForInput (SelEv.eintr w :: rest) st =
        (relayWrite st w, some (Except.ok true))) ∧
    (conv_signal (relayWrite st w).relay = none →
      waitForInput (SelEv.eintr w :: rest) st =
        waitForInput rest (relayWrite st w)) ∧
    (∀ n, waitForInput (SelEv.ready n :: rest) st =
      (st, some (Except.ok (n == 1)))) ∧
    (∀ evs s1, waitForInput evs st = (s1, some (Except.ok false)) →
      ∃ n, n ≠ 1 ∧ SelEv.ready n ∈ evs) := by
  refine ⟨?_, ?_, ?_, ?_, ?_⟩
  · intro h
    simp [waitForInput, get_last_signal, h]
  · intro s hs hne
    match s with
    | Signal.Continue => exact absurd rfl hne
    | Signal.Interrupt => simp [waitForInput, get_last_signal, hs]
    | Signal.Suspend => simp [waitForInput, get_last_signal, hs]
    | Signal.Quit => simp [waitForInput, get_last_signal, hs]
  · intro h
    simp [waitForInput, get_last_signal, h]
  · intro n
    simp [waitForInput]
  · exact fun evs s1 h => wait_false_requires_timeout evs st s1 h

/-- C4 witness: a wait interrupted by a recorded Interrupt returns true
immediately, and an empty-handed schedule ending in a zero readiness
count returns false. -/
theorem wait_for_input_paths_witness :
    waitForInput [SelEv.eintr (some SIGINT)] stElan =
      (relayWrite stElan (some SIGINT), some (Except.ok true)) ∧
    waitForInput [SelEv.ready 0] stElan = (stElan, some (Except.ok false)) :=
  ⟨(wait_for_input_paths stElan [] (some SIGINT)).2.1 Signal.Interrupt
      (by decide) (by decide),
    (wait_for_input_paths stElan [] (some SIGINT)).2.2.2.1 0⟩

/-- C10: a successful `read` appends the incoming bytes after the
existing contents — the prior bytes are an unchanged prefix and the
length grows by exactly the returned count — and a failed `read` leaves
the buffer's length and contents unchanged. -/
theorem read_appends_frame (buf junk chunk : List Nat)
    (e : Unit) (hsp : chunk.length ≤ junk.length) :
    read_impl buf junk (Except.ok chunk) =
      (buf ++ chunk, Except.ok chunk.length) ∧
    read_impl buf junk (Except.error e) = (buf, Except.error e) := by
  have h1 : (buf ++ junk).take buf.length = buf := List.take_left buf junk
  constructor
  · simp only [read_impl, writeAt, h1]
    rw [Prod.mk.injEq]
    refine ⟨?_, rfl⟩
    rw [← List.length_append buf chunk]
    exact List.take_left _ _
  · simp [read_impl, h1]

/-- C10 witness: reading three bytes into a two-byte buffer with spare
capacity appends them, returning 3; a failing read leaves the buffer as
it was. -/
theorem read_appends_frame_witness :
    read_impl [1, 2] (List.replicate 33 0) (Except.ok [7, 8, 9]) =
      ([1, 2] ++ [7, 8, 9], Except.ok 3) ∧
    read_impl [1, 2] (List.replicate 33 0) (Except.error ()) =
      ([1, 2], Except.error ()) :=
  ⟨(read_appends_frame [1, 2] (List.replicate 33 0) [7, 8, 9] ()
      (by decide)).1,
    (read_appends_frame [1, 2] (List.replicate 33 0) [7, 8, 9] ()
      (by decide)).2⟩

end Linefeed
